import Mathlib

/-!
Verification development for the chip-chap multi-station production
orchestrator (hardware-triggered inspection system, Doc1-Doc7).

The orchestrator implementation (device/production_controller.py,
device/io_manager.py, the MVS camera layer) is documented in
HARDWARE_INTEGRATION_GUIDE.md and the camera implementation notes but the
Python modules themselves are not part of the material checked in here, so
every definition below is modelled from the specification text and the
in-repo guides, faithful to their words: the per-station state machine of
spec section 4.2, the controller lifecycle of section 4.3, the IOChannel
serialization discipline of sections 4.1 and 5, and the capture fallback
rules of the MVS camera notes.
-/

namespace ChipChap

/-- Modelled from the spec: StationConfig (spec section 3), the immutable
description of the wiring and timing of one station, one record per station
in station_trigger_config.json. -/
structure StationConfig where
  stationId : String
  displayName : String
  sensorLine : Nat
  triggerLine : Nat
  ejectorDistance : Nat
  useHardwareTrigger : Bool
  triggerPulseDuration : Nat
  enabled : Bool
  deriving DecidableEq, Repr

/-- Modelled from the spec: the state-machine values of spec section 4.2. -/
inductive WorkerPhase where
  | IDLE
  | WAIT_SENSOR
  | ARMED
  | CAPTURING
  | INSPECTING
  | REPORTING
  | ACKNOWLEDGING
  | STOPPED
  deriving DecidableEq, Repr

/-- Modelled from the spec: StationRuntimeState (spec section 3) together
with the private loop variables of the worker (previous sensor reading for
edge detection, busy indicator). Owned exclusively by one StationWorker. -/
structure WorkerState where
  phase : WorkerPhase
  prevSensor : Bool
  busy : Bool
  cyclesCompleted : Nat
  cyclesPassed : Nat
  cyclesFailed : Nat
  cyclesErrored : Nat
  lastResultTimestamp : Nat
  stopRequested : Bool
  deriving DecidableEq, Repr

/-- A fresh worker as spawned by start: waiting for a rising edge with all
counters at zero. -/
def initialWorker : WorkerState :=
  { phase := .WAIT_SENSOR
    prevSensor := false
    busy := false
    cyclesCompleted := 0
    cyclesPassed := 0
    cyclesFailed := 0
    cyclesErrored := 0
    lastResultTimestamp := 0
    stopRequested := false }

/-- Modelled from the spec: the result code written on the shared output
channel in REPORTING (spec section 4.2, PASS or FAIL). -/
inductive ResultCode where
  | PASS
  | FAIL
  deriving DecidableEq, Repr

/-- REPORTING maps the boolean inspection result to a result code. -/
def resultCode (passed : Bool) : ResultCode :=
  if passed then .PASS else .FAIL

/-- Modelled from the spec: IOChannel.sendResultAndAwaitAck (spec section
4.1) writes the code and blocks for the acknowledgement; it returns false,
not a fault, when the acknowledgement times out. The second argument is
whether the downstream handler acknowledged within the timeout. -/
def sendResultAndAwaitAck (_code : ResultCode) (ackArrived : Bool) : Bool :=
  ackArrived

/-- Outcomes of the external collaborators during one poll of the worker
loop: the sensor read (sensorOk is false on an IOFault), the trigger pulse
(pulseOk is false on an IOFault), the camera capture (none on timeout or
backend error), the injected inspection callback (error on an exception),
the acknowledgement wait, and the current timestamp. -/
structure PollEnv where
  sensorOk : Bool
  sensor : Bool
  pulseOk : Bool
  captureFrame : Option Nat
  inspect : Except Unit Bool
  acked : Bool
  now : Nat
  deriving Repr

/-- Observable hardware and callback interactions of a worker, in order. -/
inductive IOEvent where
  | pulse (line : Nat) (durationMs : Nat)
  | captureCall (stationId : String)
  | inspectCall (stationId : String) (frame : Nat)
  | sendResult (code : ResultCode) (acked : Bool)
  deriving DecidableEq, Repr

/-- Modelled from the spec: one full trigger+capture+report cycle of the
production loop (spec section 4.2, states ARMED through ACKNOWLEDGING),
entered from WAIT_SENSOR on a detected rising edge. An IOFault on the
trigger pulse is an errored cycle and returns to WAIT_SENSOR; a capture
failure is an errored cycle that still reports a synthetic fail; a callback
exception is caught and treated as fail; the result is always reported and
the worker always clears busy and returns to WAIT_SENSOR regardless of the
acknowledgement. -/
def runCycle (cfg : StationConfig) (st : WorkerState) (env : PollEnv) :
    WorkerState × List IOEvent :=
  let st := { st with busy := true }
  if cfg.useHardwareTrigger && !env.pulseOk then
    ({ st with phase := .WAIT_SENSOR, busy := false
               cyclesErrored := st.cyclesErrored + 1 }, [])
  else
    let pulseEvs : List IOEvent :=
      if cfg.useHardwareTrigger then
        [.pulse cfg.triggerLine cfg.triggerPulseDuration]
      else []
    let capEv : IOEvent := .captureCall cfg.stationId
    match env.captureFrame with
    | none =>
        let acked := sendResultAndAwaitAck (resultCode false) env.acked
        ({ st with phase := .WAIT_SENSOR, busy := false
                   cyclesErrored := st.cyclesErrored + 1
                   cyclesCompleted := st.cyclesCompleted + 1
                   lastResultTimestamp := env.now },
         pulseEvs ++ [capEv, .sendResult (resultCode false) acked])
    | some f =>
        let inspEv : IOEvent := .inspectCall cfg.stationId f
        match env.inspect with
        | .error _ =>
            let acked := sendResultAndAwaitAck (resultCode false) env.acked
            ({ st with phase := .WAIT_SENSOR, busy := false
                       cyclesFailed := st.cyclesFailed + 1
                       cyclesCompleted := st.cyclesCompleted + 1
                       lastResultTimestamp := env.now },
             pulseEvs ++ [capEv, inspEv, .sendResult (resultCode false) acked])
        | .ok passed =>
            let acked := sendResultAndAwaitAck (resultCode passed) env.acked
            let st :=
              if passed then { st with cyclesPassed := st.cyclesPassed + 1 }
              else { st with cyclesFailed := st.cyclesFailed + 1 }
            ({ st with phase := .WAIT_SENSOR, busy := false
                       cyclesCompleted := st.cyclesCompleted + 1
                       lastResultTimestamp := env.now },
             pulseEvs ++ [capEv, inspEv, .sendResult (resultCode passed) acked])

/-- Modelled from the spec: one iteration of the per-station thread loop.
stopRequested is checked only at the state-entry boundary; in WAIT_SENSOR
the sensor line is polled and a rising edge (previous read false, current
read true) starts one full cycle; a sensor IOFault is retried, remaining in
WAIT_SENSOR; a level (sustained) reading does not re-trigger. -/
def pollStep (cfg : StationConfig) (st : WorkerState) (env : PollEnv) :
    WorkerState × List IOEvent :=
  if st.stopRequested then ({ st with phase := .STOPPED }, [])
  else
    match st.phase with
    | .WAIT_SENSOR =>
        if env.sensorOk then
          let edge := !st.prevSensor && env.sensor
          let st := { st with prevSensor := env.sensor }
          if edge then runCycle cfg st env else (st, [])
        else (st, [])
    | _ => (st, [])

/-- Run the worker loop over a list of successive poll environments,
collecting the emitted hardware and callback events. -/
def runPolls (cfg : StationConfig) (st : WorkerState) :
    List PollEnv → WorkerState × List IOEvent
  | [] => (st, [])
  | e :: es =>
      let r1 := pollStep cfg st e
      let r2 := runPolls cfg r1.1 es
      (r2.1, r1.2 ++ r2.2)

/-- Number of rising edges (false-to-true transitions) in a sensor reading
sequence, given the reading before the sequence started. -/
def countRisingEdges (prev : Bool) : List Bool → Nat
  | [] => 0
  | b :: bs => (if !prev && b then 1 else 0) + countRisingEdges b bs

/-- Number of trigger pulses in an event trace. -/
def pulseCount : List IOEvent → Nat
  | [] => 0
  | .pulse _ _ :: es => pulseCount es + 1
  | _ :: es => pulseCount es

/-- Every result reported in the trace carries the FAIL code. -/
def allFailResults : List IOEvent → Bool
  | [] => true
  | .sendResult c _ :: es => (c == ResultCode.FAIL) && allFailResults es
  | _ :: es => allFailResults es

/-- The Top station of the concrete scenario: sensor line 0, trigger line 0,
10 ms pulse, hardware triggering (station mapping table, Doc1 row). -/
def topConfig : StationConfig :=
  { stationId := "Top"
    displayName := "TOP"
    sensorLine := 0
    triggerLine := 0
    ejectorDistance := 10
    useHardwareTrigger := true
    triggerPulseDuration := 10
    enabled := true }

/-- A poll environment in which every collaborator behaves: the sensor read
succeeds with value s, the pulse succeeds, capture returns a frame, the
callback returns b, and the acknowledgement outcome is a. -/
def goodEnv (s b a : Bool) : PollEnv :=
  { sensorOk := true
    sensor := s
    pulseOk := true
    captureFrame := some 0
    inspect := .ok b
    acked := a
    now := 0 }

/-- The concrete scenario poll sequence: sensor reads
false, false, true, true, false with well-behaved collaborators. -/
def scenarioEnvs (b a : Bool) : List PollEnv :=
  [goodEnv false b a, goodEnv false b a, goodEnv true b a,
   goodEnv true b a, goodEnv false b a]

/-- A poll environment whose camera capture times out or fails (capture
returns nothing); everything else behaves. -/
def captureFailEnv (s a : Bool) : PollEnv :=
  { sensorOk := true
    sensor := s
    pulseOk := true
    captureFrame := none
    inspect := .ok true
    acked := a
    now := 0 }

/-- A poll environment whose inspection callback raises an exception;
everything else behaves. -/
def inspectFailEnv (s a : Bool) : PollEnv :=
  { sensorOk := true
    sensor := s
    pulseOk := true
    captureFrame := some 0
    inspect := .error ()
    acked := a
    now := 0 }

/-- Modelled from the spec: the lifecycle phases of the ProductionController
(spec section 3); the transient Stopping phase of a stop call resolves to
Idle before stop returns. -/
inductive CtrlPhase where
  | Idle
  | Running
  | Stopping
  deriving DecidableEq, Repr

/-- Modelled from the spec: the synchronous error taxonomy of the controller
operations (spec section 7). -/
inductive CtrlError where
  | ConfigConflict
  | NotIdle
  | AlreadyRunning
  | NoStationsConfigured
  deriving DecidableEq, Repr

/-- One spawned station thread: its immutable configuration, its runtime
state, and the time until it next reaches a state-entry checkpoint where it
reads stopRequested (bounded by one hardware transaction). -/
structure RunningWorker where
  config : StationConfig
  rt : WorkerState
  checkpointDelay : Nat
  deriving DecidableEq, Repr

/-- Upper bound in milliseconds on one hardware transaction (the result
acknowledgement wait of 5000 ms is the longest bounded wait listed in the
integration guide). -/
def hardwareTransactionMs : Nat := 5000

/-- A freshly spawned worker reaches its first checkpoint within one
hardware transaction. -/
def mkWorker (cfg : StationConfig) : RunningWorker :=
  { config := cfg, rt := initialWorker, checkpointDelay := hardwareTransactionMs }

/-- Modelled from the spec: ProductionController state (spec sections 3 and
4.3): lifecycle phase, the configured stations, and the worker handles. -/
structure Controller where
  phase : CtrlPhase
  configs : List StationConfig
  workers : List RunningWorker
  deriving Repr

/-- A controller with no stations configured and no workers. -/
def emptyController : Controller :=
  { phase := .Idle, configs := [], workers := [] }

/-- Two station configurations conflict when they share a sensor line or a
trigger line. -/
def conflictsWith (a b : StationConfig) : Bool :=
  a.sensorLine == b.sensorLine || a.triggerLine == b.triggerLine

/-- Modelled from the spec: configureStation (spec section 4.3) validates
uniqueness of sensorLine and triggerLine against the already-configured
stations, failing with ConfigConflict, and may be called only while Idle. -/
def configureStation (c : Controller) (cfg : StationConfig) :
    Except CtrlError Controller :=
  match c.phase with
  | .Idle =>
      if c.configs.any (fun c0 => conflictsWith c0 cfg) then
        .error .ConfigConflict
      else .ok { c with configs := c.configs ++ [cfg] }
  | _ => .error .NotIdle

/-- The stations for which a worker is spawned. -/
def enabledConfigs (c : Controller) : List StationConfig :=
  c.configs.filter (fun cfg => cfg.enabled)

/-- Modelled from the spec: start (spec section 4.3) transitions Idle to
Running, spawning one worker per enabled station; it fails with
AlreadyRunning when not Idle and with NoStationsConfigured when no enabled
station exists. -/
def startProduction (c : Controller) : Except CtrlError Controller :=
  match c.phase with
  | .Idle =>
      if (enabledConfigs c).isEmpty then .error .NoStationsConfigured
      else .ok { c with phase := .Running
                        workers := (enabledConfigs c).map mkWorker }
  | _ => .error .AlreadyRunning

/-- Per-worker outcome of a stop request: the station, whether the worker
overran the grace period (a StopTimeout warning), and its last known state,
preserved for diagnostics. -/
structure StopOutcome where
  stationId : String
  stopTimeoutWarning : Bool
  lastKnownState : WorkerState
  deriving DecidableEq, Repr

/-- Modelled from the spec: stopping one worker. stopRequested is set; a
worker whose next checkpoint falls within the grace period reaches STOPPED;
a straggler is force-detached with a StopTimeout warning and its last known
state preserved. -/
def stopWorker (timeout : Nat) (w : RunningWorker) : StopOutcome :=
  let signalled := { w.rt with stopRequested := true }
  if w.checkpointDelay ≤ timeout then
    { stationId := w.config.stationId
      stopTimeoutWarning := false
      lastKnownState := { signalled with phase := .STOPPED } }
  else
    { stationId := w.config.stationId
      stopTimeoutWarning := true
      lastKnownState := signalled }

/-- Largest time any worker needs to reach its next checkpoint. -/
def maxCheckpointDelay (ws : List RunningWorker) : Nat :=
  ws.foldr (fun w m => max w.checkpointDelay m) 0

/-- Time spent inside stop: the controller waits for the workers but never
beyond the grace period. -/
def stopElapsed (timeout : Nat) (ws : List RunningWorker) : Nat :=
  min timeout (maxCheckpointDelay ws)

/-- What a stop call returns: the controller (back in Idle), the per-worker
outcomes, and the elapsed wait. -/
structure StopResult where
  controller : Controller
  outcomes : List StopOutcome
  elapsedMs : Nat
  deriving Repr

/-- Modelled from the spec: stop (spec section 4.3) transitions Running
through Stopping back to Idle, sets stopRequested on every worker, waits at
most the grace period, force-detaches stragglers with StopTimeout warnings,
and always leaves the controller Idle so a later start is possible. -/
def stopProduction (c : Controller) (timeout : Nat) : StopResult :=
  match c.phase with
  | .Running =>
      { controller := { c with phase := .Idle, workers := [] }
        outcomes := c.workers.map (stopWorker timeout)
        elapsedMs := stopElapsed timeout c.workers }
  | _ => { controller := c, outcomes := [], elapsedMs := 0 }

/-- The station mapping table of the integration guide (Doc1-Doc7): station
names TOP through TOP_SEAL on sensor lines 0-6 and trigger lines 0-6 with
ejector distances 10, 4, 0, 0, 0, 0, 0. -/
def stationTable : List StationConfig :=
  [{ stationId := "Doc1", displayName := "TOP", sensorLine := 0,
     triggerLine := 0, ejectorDistance := 10, useHardwareTrigger := true,
     triggerPulseDuration := 10, enabled := true },
   { stationId := "Doc2", displayName := "BOTTOM", sensorLine := 1,
     triggerLine := 1, ejectorDistance := 4, useHardwareTrigger := true,
     triggerPulseDuration := 10, enabled := true },
   { stationId := "Doc3", displayName := "FEED", sensorLine := 2,
     triggerLine := 2, ejectorDistance := 0, useHardwareTrigger := true,
     triggerPulseDuration := 10, enabled := true },
   { stationId := "Doc4", displayName := "PICKUP1", sensorLine := 3,
     triggerLine := 3, ejectorDistance := 0, useHardwareTrigger := true,
     triggerPulseDuration := 10, enabled := true },
   { stationId := "Doc5", displayName := "PICKUP2", sensorLine := 4,
     triggerLine := 4, ejectorDistance := 0, useHardwareTrigger := true,
     triggerPulseDuration := 10, enabled := true },
   { stationId := "Doc6", displayName := "BOTTOM_SEAL", sensorLine := 5,
     triggerLine := 5, ejectorDistance := 0, useHardwareTrigger := true,
     triggerPulseDuration := 10, enabled := true },
   { stationId := "Doc7", displayName := "TOP_SEAL", sensorLine := 6,
     triggerLine := 6, ejectorDistance := 0, useHardwareTrigger := true,
     triggerPulseDuration := 10, enabled := true }]

/-- A controller with the full seven-station fleet configured, still Idle. -/
def fleetController : Controller :=
  { phase := .Idle, configs := stationTable, workers := [] }

/-- First station of the trigger-line-3 conflict scenario. -/
def conflictCfgA : StationConfig :=
  { stationId := "StationA", displayName := "A", sensorLine := 1,
    triggerLine := 3, ejectorDistance := 0, useHardwareTrigger := true,
    triggerPulseDuration := 10, enabled := true }

/-- Second station of the conflict scenario: a different station claiming
the same trigger line 3. -/
def conflictCfgB : StationConfig :=
  { stationId := "StationB", displayName := "B", sensorLine := 2,
    triggerLine := 3, ejectorDistance := 0, useHardwareTrigger := true,
    triggerPulseDuration := 10, enabled := true }

/-- The controller after the first, successful configureStation call of the
conflict scenario. -/
def controllerWithA : Controller :=
  { phase := .Idle, configs := [conflictCfgA], workers := [] }

/-- The fleet controller immediately after a successful start: Running with
one fresh worker per station of the mapping table. -/
def fleetRunning : Controller :=
  { phase := .Running, configs := stationTable
    workers := stationTable.map mkWorker }

/-- Micro-operations on the shared physical I/O bus. A hardware transaction
is a short sequence of these executed under the single IOChannel lock. -/
inductive BusOp where
  | assertLine (line : Nat)
  | deassertLine (line : Nat)
  | readLine (line : Nat)
  | writeResult (code : Nat)
  | readAck
  deriving DecidableEq, Repr

/-- Modelled from the spec: the readInput transaction touches the bus once. -/
def readInputTxn (line : Nat) : List BusOp :=
  [.readLine line]

/-- Modelled from the spec: pulseOutput asserts the line, holds, and
deasserts; the assert/hold/deassert sequence is the atomic unit. -/
def pulseTxn (line : Nat) : List BusOp :=
  [.assertLine line, .deassertLine line]

/-- Modelled from the spec: sendResultAndAwaitAck writes the result code and
then reads the acknowledgement. -/
def sendResultTxn (code : Nat) : List BusOp :=
  [.writeResult code, .readAck]

/-- The hardware transactions an IOChannel method may issue. -/
def WellFormedTxn (t : List BusOp) : Prop :=
  (∃ l, t = readInputTxn l) ∨ (∃ l, t = pulseTxn l) ∨ (∃ c, t = sendResultTxn c)

/-- A nonempty tail of a hardware transaction still in flight. -/
def TxnSuffix (ops : List BusOp) : Prop :=
  ∃ t, WellFormedTxn t ∧ ops <:+ t

/-- State of the shared bus under the IOChannel lock discipline: the
remaining transaction queues of the station workers, the current lock holder
together with the micro-operations left in its transaction, and the bus
access history, oldest first. -/
structure BusSys where
  progs : List (List (List BusOp))
  holder : Option (Nat × List BusOp)
  trace : List (Nat × BusOp)

/-- Modelled from the spec: interleaved execution of the station workers
against the shared bus. A worker acquires the free lock to begin its next
transaction and performs its micro-operations while holding the lock,
releasing it exactly when the transaction ends; the scheduler is free to
pick any worker whenever the lock is free. -/
inductive BusStep : BusSys → BusSys → Prop where
  | acquire (s : BusSys) (i : Nat) (t : List BusOp) (rest : List (List BusOp)) :
      s.holder = none →
      s.progs.get? i = some (t :: rest) →
      BusStep s { s with holder := some (i, t), progs := s.progs.set i rest }
  | micro (s : BusSys) (i : Nat) (op : BusOp) (ops : List BusOp) :
      s.holder = some (i, op :: ops) →
      BusStep s { s with
                  holder := if ops.isEmpty then none else some (i, ops)
                  trace := s.trace ++ [(i, op)] }

/-- States reachable from an initial bus state under any interleaving. -/
inductive BusReach (init : BusSys) : BusSys → Prop where
  | refl : BusReach init init
  | step {s t : BusSys} : BusReach init s → BusStep s t → BusReach init t

/-- A legal initial bus state: lock free, empty history, and every queued
transaction one of the IOChannel transactions. -/
def BusInit (s : BusSys) : Prop :=
  s.holder = none ∧ s.trace = [] ∧ ∀ p ∈ s.progs, ∀ t ∈ p, WellFormedTxn t

/-- Inductive invariant of the bus system: every assert in the history is
immediately followed by the matching deassert of the same worker unless it
is the last access and that worker still holds the lock about to deassert;
the lock is only ever held mid-transaction; all queued transactions are
well formed. -/
def BusInv (s : BusSys) : Prop :=
  (∀ pre i l post, s.trace = pre ++ (i, BusOp.assertLine l) :: post →
      (∃ rest, post = (i, BusOp.deassertLine l) :: rest) ∨
      (post = [] ∧ s.holder = some (i, [BusOp.deassertLine l]))) ∧
  (∀ i ops, s.holder = some (i, ops) → ops ≠ [] ∧ TxnSuffix ops) ∧
  (∀ p ∈ s.progs, ∀ t ∈ p, WellFormedTxn t)

/-- Demonstration fleet for the bus model: worker 0 will pulse line 0 and
worker 1 will read line 1. -/
def busDemoInit : BusSys :=
  { progs := [[pulseTxn 0], [readInputTxn 1]], holder := none, trace := [] }

/-- The demonstration fleet after worker 0 completed its pulse. -/
def busDemoDone : BusSys :=
  { progs := [[], [readInputTxn 1]]
    holder := none
    trace := [(0, BusOp.assertLine 0), (0, BusOp.deassertLine 0)] }

/-- Identity of the camera used for a capture request. -/
inductive CaptureSource where
  | mvs (serial : String)
  | laptopCam (index : Nat)
  deriving DecidableEq, Repr

/-- Modelled from the spec: camera selection of the MVS implementation notes
(device camera layer, not checked in here). A configured registry serial
selects the MVS camera; with an empty registry entry only Doc1 (TOP) falls
back to the OpenCV laptop camera at device index 0, while Doc2 through Doc7
resolve to no camera at all. -/
def resolveCaptureSource (docIndex : Nat) (registrySerial : Option String) :
    Option CaptureSource :=
  match registrySerial with
  | some s => some (.mvs s)
  | none => if docIndex == 1 then some (.laptopCam 0) else none

/-- Capture at a station: resolve the camera, then ask the device layer
(dev maps a camera to a frame, or fails) for a frame; with no resolved
camera the capture fails. -/
def captureAtStation (docIndex : Nat) (registrySerial : Option String)
    (dev : CaptureSource → Option Nat) : Option Nat :=
  match resolveCaptureSource docIndex registrySerial with
  | some src => dev src
  | none => none

theorem pulseCount_append (xs ys : List IOEvent) :
    pulseCount (xs ++ ys) = pulseCount xs + pulseCount ys := by
  induction xs with
  | nil => simp [pulseCount]
  | cons x xs ih => cases x <;> simp [pulseCount, ih] <;> omega

theorem allFailResults_append (xs ys : List IOEvent) :
    allFailResults (xs ++ ys) = (allFailResults xs && allFailResults ys) := by
  induction xs with
  | nil => simp [allFailResults]
  | cons x xs ih => cases x <;> simp [allFailResults, ih, Bool.and_assoc]

theorem runCycle_ok (cfg : StationConfig) (st : WorkerState) (env : PollEnv)
    (hp : env.pulseOk = true) :
    (runCycle cfg st env).1.phase = .WAIT_SENSOR ∧
    (runCycle cfg st env).1.stopRequested = st.stopRequested ∧
    (runCycle cfg st env).1.prevSensor = st.prevSensor ∧
    (runCycle cfg st env).1.busy = false ∧
    (runCycle cfg st env).1.cyclesCompleted = st.cyclesCompleted + 1 ∧
    pulseCount (runCycle cfg st env).2 = (if cfg.useHardwareTrigger then 1 else 0) := by
  unfold runCycle
  cases hc : env.captureFrame with
  | none =>
      cases hw : cfg.useHardwareTrigger <;>
        simp [hp, hw, pulseCount, pulseCount_append]
  | some f =>
      cases hi : env.inspect with
      | error e =>
          cases hw : cfg.useHardwareTrigger <;>
            simp [hp, hw, pulseCount, pulseCount_append]
      | ok b =>
          cases b <;> cases hw : cfg.useHardwareTrigger <;>
            simp [hp, hw, pulseCount, pulseCount_append]

theorem pollStep_edge (cfg : StationConfig) (st : WorkerState) (env : PollEnv)
    (h1 : st.phase = .WAIT_SENSOR) (h2 : st.stopRequested = false)
    (hso : env.sensorOk = true) (hedge : (!st.prevSensor && env.sensor) = true) :
    pollStep cfg st env = runCycle cfg { st with prevSensor := env.sensor } env := by
  simp [pollStep, h1, h2, hso, hedge]

theorem pollStep_noEdge (cfg : StationConfig) (st : WorkerState) (env : PollEnv)
    (h1 : st.phase = .WAIT_SENSOR) (h2 : st.stopRequested = false)
    (hso : env.sensorOk = true) (hedge : (!st.prevSensor && env.sensor) = false) :
    pollStep cfg st env = ({ st with prevSensor := env.sensor }, []) := by
  simp [pollStep, h1, h2, hso, hedge]

theorem runPolls_good_count (cfg : StationConfig) (envs : List PollEnv) :
    ∀ st : WorkerState, st.phase = .WAIT_SENSOR → st.stopRequested = false →
      (∀ e ∈ envs, e.sensorOk = true ∧ e.pulseOk = true) →
      (runPolls cfg st envs).1.phase = .WAIT_SENSOR ∧
      (runPolls cfg st envs).1.stopRequested = false ∧
      (runPolls cfg st envs).1.cyclesCompleted
        = st.cyclesCompleted + countRisingEdges st.prevSensor (envs.map PollEnv.sensor) ∧
      pulseCount (runPolls cfg st envs).2
        = (if cfg.useHardwareTrigger then 1 else 0)
            * countRisingEdges st.prevSensor (envs.map PollEnv.sensor) := by
  induction envs with
  | nil =>
      intro st h1 h2 _
      simp [runPolls, countRisingEdges, pulseCount, h1, h2]
  | cons e es ih =>
      intro st h1 h2 h3
      obtain ⟨hso, hpo⟩ := h3 e (List.mem_cons_self _ _)
      have h3e : ∀ x ∈ es, x.sensorOk = true ∧ x.pulseOk = true :=
        fun x hx => h3 x (List.mem_cons_of_mem _ hx)
      by_cases hedge : (!st.prevSensor && e.sensor) = true
      · have hps := pollStep_edge cfg st e h1 h2 hso hedge
        have hcy := runCycle_ok cfg { st with prevSensor := e.sensor } e hpo
        obtain ⟨hcp, hcs, hcv, hcb, hcc, hcpc⟩ := hcy
        have ihr := ih (runCycle cfg { st with prevSensor := e.sensor } e).1
          hcp (by rw [hcs]; exact h2) h3e
        obtain ⟨ip, is, ic, ipc⟩ := ihr
        refine ⟨?_, ?_, ?_, ?_⟩
        · simp [runPolls, hps, ip]
        · simp [runPolls, hps, is]
        · have hprev : ({ st with prevSensor := e.sensor } : WorkerState).prevSensor = e.sensor := rfl
          have hcompl : ({ st with prevSensor := e.sensor } : WorkerState).cyclesCompleted = st.cyclesCompleted := rfl
          simp only [runPolls, hps, List.map_cons, countRisingEdges, hedge, if_true]
          rw [ic, hcc, hcv, hprev, hcompl]
          omega
        · have hprev : ({ st with prevSensor := e.sensor } : WorkerState).prevSensor = e.sensor := rfl
          simp only [runPolls, hps, List.map_cons, countRisingEdges, hedge, if_true]
          rw [pulseCount_append, ipc, hcpc, hcv, hprev]
          cases cfg.useHardwareTrigger <;> simp
      · rw [Bool.not_eq_true] at hedge
        have hps := pollStep_noEdge cfg st e h1 h2 hso hedge
        have ihr := ih { st with prevSensor := e.sensor } h1 h2 h3e
        obtain ⟨ip, is, ic, ipc⟩ := ihr
        refine ⟨?_, ?_, ?_, ?_⟩
        · simp [runPolls, hps, ip]
        · simp [runPolls, hps, is]
        · simp only [runPolls, hps, List.map_cons, countRisingEdges, hedge, if_false]
          rw [ic]
          simp
        · simp only [runPolls, hps, List.map_cons, countRisingEdges, hedge, if_false]
          rw [pulseCount_append]
          simp [pulseCount, ipc]

theorem runCycle_captureFail (cfg : StationConfig) (st : WorkerState) (env : PollEnv)
    (hp : env.pulseOk = true) (hc : env.captureFrame = none) :
    (runCycle cfg st env).1.phase = .WAIT_SENSOR ∧
    (runCycle cfg st env).1.stopRequested = st.stopRequested ∧
    (runCycle cfg st env).1.prevSensor = st.prevSensor ∧
    (runCycle cfg st env).1.cyclesErrored = st.cyclesErrored + 1 ∧
    (runCycle cfg st env).1.cyclesCompleted = st.cyclesCompleted + 1 ∧
    allFailResults (runCycle cfg st env).2 = true := by
  unfold runCycle
  cases hw : cfg.useHardwareTrigger <;>
    simp [hp, hc, hw, allFailResults, allFailResults_append, resultCode,
      sendResultAndAwaitAck]

theorem runCycle_inspectFail (cfg : StationConfig) (st : WorkerState) (env : PollEnv)
    (hp : env.pulseOk = true) (f : Nat) (hc : env.captureFrame = some f)
    (hi : env.inspect = .error ()) :
    (runCycle cfg st env).1.phase = .WAIT_SENSOR ∧
    (runCycle cfg st env).1.stopRequested = st.stopRequested ∧
    (runCycle cfg st env).1.prevSensor = st.prevSensor ∧
    (runCycle cfg st env).1.cyclesFailed = st.cyclesFailed + 1 ∧
    (runCycle cfg st env).1.cyclesCompleted = st.cyclesCompleted + 1 ∧
    allFailResults (runCycle cfg st env).2 = true := by
  unfold runCycle
  cases hw : cfg.useHardwareTrigger <;>
    simp [hp, hc, hi, hw, allFailResults, allFailResults_append, resultCode,
      sendResultAndAwaitAck]

theorem runPolls_captureFail (cfg : StationConfig) (envs : List PollEnv) :
    ∀ st : WorkerState, st.phase = .WAIT_SENSOR → st.stopRequested = false →
      (∀ e ∈ envs, e.sensorOk = true ∧ e.pulseOk = true ∧ e.captureFrame = none) →
      (runPolls cfg st envs).1.phase = .WAIT_SENSOR ∧
      (runPolls cfg st envs).1.stopRequested = false ∧
      (runPolls cfg st envs).1.cyclesErrored
        = st.cyclesErrored + countRisingEdges st.prevSensor (envs.map PollEnv.sensor) ∧
      (runPolls cfg st envs).1.cyclesCompleted
        = st.cyclesCompleted + countRisingEdges st.prevSensor (envs.map PollEnv.sensor) ∧
      allFailResults (runPolls cfg st envs).2 = true := by
  induction envs with
  | nil =>
      intro st h1 h2 _
      simp [runPolls, countRisingEdges, allFailResults, h1, h2]
  | cons e es ih =>
      intro st h1 h2 h3
      obtain ⟨hso, hpo, hcf⟩ := h3 e (List.mem_cons_self _ _)
      have h3e : ∀ x ∈ es, x.sensorOk = true ∧ x.pulseOk = true ∧ x.captureFrame = none :=
        fun x hx => h3 x (List.mem_cons_of_mem _ hx)
      by_cases hedge : (!st.prevSensor && e.sensor) = true
      · have hps := pollStep_edge cfg st e h1 h2 hso hedge
        obtain ⟨hcp, hcs, hcv, hce, hcc, hcfail⟩ :=
          runCycle_captureFail cfg { st with prevSensor := e.sensor } e hpo hcf
        have ihr := ih (runCycle cfg { st with prevSensor := e.sensor } e).1
          hcp (by rw [hcs]; exact h2) h3e
        obtain ⟨ip, is, ie, ic, ifail⟩ := ihr
        have hprev : ({ st with prevSensor := e.sensor } : WorkerState).prevSensor = e.sensor := rfl
        have herr : ({ st with prevSensor := e.sensor } : WorkerState).cyclesErrored = st.cyclesErrored := rfl
        have hcompl : ({ st with prevSensor := e.sensor } : WorkerState).cyclesCompleted = st.cyclesCompleted := rfl
        refine ⟨by simp [runPolls, hps, ip], by simp [runPolls, hps, is], ?_, ?_, ?_⟩
        · simp only [runPolls, hps, List.map_cons, countRisingEdges, hedge, if_true]
          rw [ie, hce, hcv, hprev, herr]
          omega
        · simp only [runPolls, hps, List.map_cons, countRisingEdges, hedge, if_true]
          rw [ic, hcc, hcv, hprev, hcompl]
          omega
        · simp only [runPolls, hps]
          rw [allFailResults_append, hcfail, ifail]
          rfl
      · rw [Bool.not_eq_true] at hedge
        have hps := pollStep_noEdge cfg st e h1 h2 hso hedge
        have ihr := ih { st with prevSensor := e.sensor } h1 h2 h3e
        obtain ⟨ip, is, ie, ic, ifail⟩ := ihr
        refine ⟨by simp [runPolls, hps, ip], by simp [runPolls, hps, is], ?_, ?_, ?_⟩
        · simp only [runPolls, hps, List.map_cons, countRisingEdges, hedge, if_false]
          rw [ie]; simp
        · simp only [runPolls, hps, List.map_cons, countRisingEdges, hedge, if_false]
          rw [ic]; simp
        · simp only [runPolls, hps]
          rw [List.nil_append, ifail]

theorem runPolls_inspectFail (cfg : StationConfig) (envs : List PollEnv) :
    ∀ st : WorkerState, st.phase = .WAIT_SENSOR → st.stopRequested = false →
      (∀ e ∈ envs, e.sensorOk = true ∧ e.pulseOk = true ∧
        (∃ f, e.captureFrame = some f) ∧ e.inspect = .error ()) →
      (runPolls cfg st envs).1.phase = .WAIT_SENSOR ∧
      (runPolls cfg st envs).1.stopRequested = false ∧
      (runPolls cfg st envs).1.cyclesFailed
        = st.cyclesFailed + countRisingEdges st.prevSensor (envs.map PollEnv.sensor) ∧
      (runPolls cfg st envs).1.cyclesCompleted
        = st.cyclesCompleted + countRisingEdges st.prevSensor (envs.map PollEnv.sensor) ∧
      allFailResults (runPolls cfg st envs).2 = true := by
  induction envs with
  | nil =>
      intro st h1 h2 _
      simp [runPolls, countRisingEdges, allFailResults, h1, h2]
  | cons e es ih =>
      intro st h1 h2 h3
      obtain ⟨hso, hpo, ⟨f, hcf⟩, hi⟩ := h3 e (List.mem_cons_self _ _)
      have h3e : ∀ x ∈ es, x.sensorOk = true ∧ x.pulseOk = true ∧
          (∃ g, x.captureFrame = some g) ∧ x.inspect = .error () :=
        fun x hx => h3 x (List.mem_cons_of_mem _ hx)
      by_cases hedge : (!st.prevSensor && e.sensor) = true
      · have hps := pollStep_edge cfg st e h1 h2 hso hedge
        obtain ⟨hcp, hcs, hcv, hcfl, hcc, hcfail⟩ :=
          runCycle_inspectFail cfg { st with prevSensor := e.sensor } e hpo f hcf hi
        have ihr := ih (runCycle cfg { st with prevSensor := e.sensor } e).1
          hcp (by rw [hcs]; exact h2) h3e
        obtain ⟨ip, is, ifl, ic, ifail⟩ := ihr
        have hprev : ({ st with prevSensor := e.sensor } : WorkerState).prevSensor = e.sensor := rfl
        have hfl : ({ st with prevSensor := e.sensor } : WorkerState).cyclesFailed = st.cyclesFailed := rfl
        have hcompl : ({ st with prevSensor := e.sensor } : WorkerState).cyclesCompleted = st.cyclesCompleted := rfl
        refine ⟨by simp [runPolls, hps, ip], by simp [runPolls, hps, is], ?_, ?_, ?_⟩
        · simp only [runPolls, hps, List.map_cons, countRisingEdges, hedge, if_true]
          rw [ifl, hcfl, hcv, hprev, hfl]
          omega
        · simp only [runPolls, hps, List.map_cons, countRisingEdges, hedge, if_true]
          rw [ic, hcc, hcv, hprev, hcompl]
          omega
        · simp only [runPolls, hps]
          rw [allFailResults_append, hcfail, ifail]
          rfl
      · rw [Bool.not_eq_true] at hedge
        have hps := pollStep_noEdge cfg st e h1 h2 hso hedge
        have ihr := ih { st with prevSensor := e.sensor } h1 h2 h3e
        obtain ⟨ip, is, ifl, ic, ifail⟩ := ihr
        refine ⟨by simp [runPolls, hps, ip], by simp [runPolls, hps, is], ?_, ?_, ?_⟩
        · simp only [runPolls, hps, List.map_cons, countRisingEdges, hedge, if_false]
          rw [ifl]; simp
        · simp only [runPolls, hps, List.map_cons, countRisingEdges, hedge, if_false]
          rw [ic]; simp
        · simp only [runPolls, hps]
          rw [List.nil_append, ifail]

theorem runCycle_pulse_line (cfg : StationConfig) (st : WorkerState) (env : PollEnv) :
    ∀ l d, IOEvent.pulse l d ∈ (runCycle cfg st env).2 → l = cfg.triggerLine := by
  intro l d h
  unfold runCycle at h
  cases hw : cfg.useHardwareTrigger <;> cases hpo : env.pulseOk <;>
    cases hc : env.captureFrame <;> simp [hw, hpo, hc] at h <;>
    first
    | (cases hi : env.inspect <;> simp [hi] at h <;>
        rcases h with h | h | h <;> simp_all)
    | (rcases h with h | h <;> simp_all)

theorem pollStep_pulse_line (cfg : StationConfig) (st : WorkerState) (env : PollEnv) :
    ∀ l d, IOEvent.pulse l d ∈ (pollStep cfg st env).2 → l = cfg.triggerLine := by
  intro l d h
  unfold pollStep at h
  split at h
  · simp at h
  · split at h
    · split at h
      · by_cases hedge : (!st.prevSensor && env.sensor) = true
        · simp only [hedge, if_true] at h
          exact runCycle_pulse_line cfg _ env l d h
        · rw [Bool.not_eq_true] at hedge
          simp [hedge] at h
      · simp at h
    · simp at h

theorem runPolls_pulse_line (cfg : StationConfig) (envs : List PollEnv) :
    ∀ st l d, IOEvent.pulse l d ∈ (runPolls cfg st envs).2 → l = cfg.triggerLine := by
  induction envs with
  | nil => intro st l d h; simp [runPolls] at h
  | cons e es ih =>
      intro st l d h
      simp only [runPolls, List.mem_append] at h
      rcases h with h | h
      · exact pollStep_pulse_line cfg st e l d h
      · exact ih _ l d h

theorem pollStep_cycle_ack (cfg : StationConfig) (st : WorkerState) (env : PollEnv)
    (h1 : st.phase = .WAIT_SENSOR) (h2 : st.stopRequested = false)
    (h3 : st.prevSensor = false) (hso : env.sensorOk = true)
    (hsv : env.sensor = true) (hpo : env.pulseOk = true) :
    (pollStep cfg st env).1.phase = .WAIT_SENSOR ∧
    (pollStep cfg st env).1.busy = false ∧
    (pollStep cfg st env).1.cyclesCompleted = st.cyclesCompleted + 1 := by
  have hedge : (!st.prevSensor && env.sensor) = true := by
    rw [h3, hsv]; rfl
  rw [pollStep_edge cfg st env h1 h2 hso hedge]
  obtain ⟨hcp, _, _, hcb, hcc, _⟩ :=
    runCycle_ok cfg { st with prevSensor := env.sensor } env hpo
  exact ⟨hcp, hcb, by rw [hcc]⟩

/-- C1: a sustained (non-edge) sensor assertion produces exactly one
trigger+capture+report cycle until the input returns to false and
re-asserts: completed cycles and pulses both equal the number of rising
edges of the sensor sequence; concretely the Top station (sensor line 0,
trigger line 0, 10 ms pulse, hardware trigger) polled over
false, false, true, true, false emits exactly one 10 ms pulse on line 0,
one capture call, one inspection callback call, and one
sendResultAndAwaitAck whose code is derived from the callback result. -/
theorem edge_triggering_invariant :
    (∀ (cfg : StationConfig) (st : WorkerState) (envs : List PollEnv),
      st.phase = .WAIT_SENSOR → st.stopRequested = false →
      (∀ e ∈ envs, e.sensorOk = true ∧ e.pulseOk = true) →
      (runPolls cfg st envs).1.cyclesCompleted
        = st.cyclesCompleted + countRisingEdges st.prevSensor (envs.map PollEnv.sensor) ∧
      (cfg.useHardwareTrigger = true →
        pulseCount (runPolls cfg st envs).2
          = countRisingEdges st.prevSensor (envs.map PollEnv.sensor))) ∧
    (∀ b a : Bool,
      (runPolls topConfig initialWorker (scenarioEnvs b a)).2
        = [.pulse 0 10, .captureCall "Top", .inspectCall "Top" 0,
           .sendResult (resultCode b) a]) := by
  constructor
  · intro cfg st envs h1 h2 h3
    obtain ⟨_, _, hc, hpc⟩ := runPolls_good_count cfg envs st h1 h2 h3
    refine ⟨hc, fun hw => ?_⟩
    rw [hpc, hw]
    simp
  · intro b a
    cases b <;> cases a <;> rfl

/-- C1 witness: the hypotheses of the general conjunct hold at the concrete
scenario and its conclusion evaluates there. -/
theorem edge_triggering_invariant_witness :
    initialWorker.phase = WorkerPhase.WAIT_SENSOR ∧
    initialWorker.stopRequested = false ∧
    (∀ e ∈ scenarioEnvs true true, e.sensorOk = true ∧ e.pulseOk = true) ∧
    (runPolls topConfig initialWorker (scenarioEnvs true true)).1.cyclesCompleted
      = initialWorker.cyclesCompleted
        + countRisingEdges initialWorker.prevSensor
            ((scenarioEnvs true true).map PollEnv.sensor) := by
  refine ⟨rfl, rfl, by decide, ?_⟩
  exact (edge_triggering_invariant.1 topConfig initialWorker (scenarioEnvs true true)
    rfl rfl (by decide)).1

/-- C2: sendResultAndAwaitAck returns false, not a fault, when the
acknowledgement times out, and regardless of the acknowledgement the worker
clears its busy indicator, transitions back to WAIT_SENSOR, and counts the
cycle as completed. -/
theorem ack_timeout_no_deadlock (cfg : StationConfig) (st : WorkerState) (env : PollEnv)
    (h1 : st.phase = .WAIT_SENSOR) (h2 : st.stopRequested = false)
    (h3 : st.prevSensor = false) (hso : env.sensorOk = true)
    (hsv : env.sensor = true) (hpo : env.pulseOk = true) :
    (∀ c : ResultCode, sendResultAndAwaitAck c false = false) ∧
    (pollStep cfg st env).1.phase = .WAIT_SENSOR ∧
    (pollStep cfg st env).1.busy = false ∧
    (pollStep cfg st env).1.cyclesCompleted = st.cyclesCompleted + 1 :=
  ⟨fun _ => rfl, pollStep_cycle_ack cfg st env h1 h2 h3 hso hsv hpo⟩

/-- C2 witness: one cycle of the Top station whose acknowledgement times
out still ends back in WAIT_SENSOR with busy cleared and the cycle
counted. -/
theorem ack_timeout_no_deadlock_witness :
    initialWorker.phase = WorkerPhase.WAIT_SENSOR ∧
    (goodEnv true true false).acked = false ∧
    (pollStep topConfig initialWorker (goodEnv true true false)).1.phase
      = WorkerPhase.WAIT_SENSOR ∧
    (pollStep topConfig initialWorker (goodEnv true true false)).1.busy = false ∧
    (pollStep topConfig initialWorker (goodEnv true true false)).1.cyclesCompleted
      = initialWorker.cyclesCompleted + 1 := by
  have h := ack_timeout_no_deadlock topConfig initialWorker (goodEnv true true false)
    rfl rfl rfl rfl rfl rfl
  exact ⟨rfl, rfl, h.2.1, h.2.2.1, h.2.2.2⟩

/-- C6: when every capture times out or fails, each rising edge still
completes a cycle reported as fail, cyclesErrored grows by exactly the
number of cycles (hence monotonically), and the worker never leaves its
loop. -/
theorem capture_timeout_cycles (cfg : StationConfig) (st : WorkerState)
    (envs : List PollEnv)
    (h1 : st.phase = .WAIT_SENSOR) (h2 : st.stopRequested = false)
    (h3 : ∀ e ∈ envs, e.sensorOk = true ∧ e.pulseOk = true ∧ e.captureFrame = none) :
    (runPolls cfg st envs).1.phase = .WAIT_SENSOR ∧
    (runPolls cfg st envs).1.cyclesErrored
      = st.cyclesErrored + countRisingEdges st.prevSensor (envs.map PollEnv.sensor) ∧
    st.cyclesErrored ≤ (runPolls cfg st envs).1.cyclesErrored ∧
    (runPolls cfg st envs).1.cyclesCompleted
      = st.cyclesCompleted + countRisingEdges st.prevSensor (envs.map PollEnv.sensor) ∧
    allFailResults (runPolls cfg st envs).2 = true := by
  obtain ⟨hp, _, he, hc, hf⟩ := runPolls_captureFail cfg envs st h1 h2 h3
  exact ⟨hp, he, by omega, hc, hf⟩

/-- C6 witness: one rising edge under a failing camera yields one errored,
completed, fail-reported cycle with the worker still in WAIT_SENSOR. -/
theorem capture_timeout_cycles_witness :
    (∀ e ∈ [captureFailEnv true false], e.sensorOk = true ∧ e.pulseOk = true ∧
      e.captureFrame = none) ∧
    (runPolls topConfig initialWorker [captureFailEnv true false]).1.cyclesErrored
      = initialWorker.cyclesErrored
        + countRisingEdges initialWorker.prevSensor
            ([captureFailEnv true false].map PollEnv.sensor) ∧
    allFailResults (runPolls topConfig initialWorker [captureFailEnv true false]).2
      = true := by
  have h := capture_timeout_cycles topConfig initialWorker [captureFailEnv true false]
    rfl rfl (by decide)
  exact ⟨by decide, h.2.1, h.2.2.2.2⟩

/-- C7: an exception from the injected inspection callback is caught inside
the worker and treated as a fail result, incrementing cyclesFailed; the
worker reports fail, stays in its loop, and never terminates because of the
faulty callback. -/
theorem inspection_fault_contained (cfg : StationConfig) (st : WorkerState)
    (envs : List PollEnv)
    (h1 : st.phase = .WAIT_SENSOR) (h2 : st.stopRequested = false)
    (h3 : ∀ e ∈ envs, e.sensorOk = true ∧ e.pulseOk = true ∧
      (∃ f, e.captureFrame = some f) ∧ e.inspect = .error ()) :
    (runPolls cfg st envs).1.phase = .WAIT_SENSOR ∧
    (runPolls cfg st envs).1.cyclesFailed
      = st.cyclesFailed + countRisingEdges st.prevSensor (envs.map PollEnv.sensor) ∧
    (runPolls cfg st envs).1.cyclesCompleted
      = st.cyclesCompleted + countRisingEdges st.prevSensor (envs.map PollEnv.sensor) ∧
    allFailResults (runPolls cfg st envs).2 = true := by
  obtain ⟨hp, _, hfl, hc, hf⟩ := runPolls_inspectFail cfg envs st h1 h2 h3
  exact ⟨hp, hfl, hc, hf⟩

/-- C7 witness: one rising edge under an always-raising callback yields one
failed, completed, fail-reported cycle with the worker still looping. -/
theorem inspection_fault_contained_witness :
    (∀ e ∈ [inspectFailEnv true false], e.sensorOk = true ∧ e.pulseOk = true ∧
      (∃ f, e.captureFrame = some f) ∧ e.inspect = .error ()) ∧
    (runPolls topConfig initialWorker [inspectFailEnv true false]).1.cyclesFailed
      = initialWorker.cyclesFailed
        + countRisingEdges initialWorker.prevSensor
            ([inspectFailEnv true false].map PollEnv.sensor) ∧
    allFailResults (runPolls topConfig initialWorker [inspectFailEnv true false]).2
      = true := by
  have hmem : ∀ e ∈ [inspectFailEnv true false], e.sensorOk = true ∧ e.pulseOk = true ∧
      (∃ f, e.captureFrame = some f) ∧ e.inspect = .error () := by
    intro e he
    simp at he
    subst he
    exact ⟨rfl, rfl, ⟨0, rfl⟩, rfl⟩
  have h := inspection_fault_contained topConfig initialWorker [inspectFailEnv true false]
    rfl rfl hmem
  exact ⟨hmem, h.2.1, h.2.2.2⟩

/-- C9: for two stations with distinct sensor and trigger lines, the worker
of station A never emits a pulse on the trigger line of station B, whatever
its sensor inputs and collaborator outcomes are. -/
theorem cross_talk_invariant (A B : StationConfig)
    (hs : A.sensorLine ≠ B.sensorLine) (ht : A.triggerLine ≠ B.triggerLine)
    (st : WorkerState) (envs : List PollEnv) :
    ∀ d, IOEvent.pulse B.triggerLine d ∉ (runPolls A st envs).2 := by
  intro d h
  exact ht (runPolls_pulse_line A envs st B.triggerLine d h).symm

/-- C9 witness: the Top station (lines 0/0) never pulses trigger line 3 of
a station wired to sensor line 1 and trigger line 3. -/
theorem cross_talk_invariant_witness :
    topConfig.sensorLine ≠ conflictCfgA.sensorLine ∧
    topConfig.triggerLine ≠ conflictCfgA.triggerLine ∧
    IOEvent.pulse conflictCfgA.triggerLine 10
      ∉ (runPolls topConfig initialWorker (scenarioEnvs true true)).2 := by
  exact ⟨by decide, by decide,
    cross_talk_invariant topConfig conflictCfgA (by decide) (by decide)
      initialWorker (scenarioEnvs true true) 10⟩

/-- C3: a configureStation call whose config shares a sensor line or a
trigger line with an already-configured station fails with ConfigConflict;
concretely, configuring two different stations on trigger line 3 succeeds
the first time and returns ConfigConflict the second time, leaving the
first configuration intact. -/
theorem configure_station_conflict (ctrl : Controller) (cfg c0 : StationConfig)
    (hidle : ctrl.phase = .Idle) (hmem : c0 ∈ ctrl.configs)
    (hconf : conflictsWith c0 cfg = true) :
    configureStation ctrl cfg = .error .ConfigConflict ∧
    configureStation emptyController conflictCfgA = .ok controllerWithA ∧
    configureStation controllerWithA conflictCfgB = .error .ConfigConflict ∧
    controllerWithA.configs = [conflictCfgA] := by
  refine ⟨?_, rfl, rfl, rfl⟩
  have hany : ctrl.configs.any (fun x => conflictsWith x cfg) = true :=
    List.any_eq_true.mpr ⟨c0, hmem, hconf⟩
  unfold configureStation
  rw [hidle]
  simp [hany]

/-- C3 witness: the general conjunct discharged at the concrete trigger
line 3 conflict. -/
theorem configure_station_conflict_witness :
    controllerWithA.phase = CtrlPhase.Idle ∧
    conflictCfgA ∈ controllerWithA.configs ∧
    conflictsWith conflictCfgA conflictCfgB = true ∧
    configureStation controllerWithA conflictCfgB = .error .ConfigConflict := by
  refine ⟨rfl, by decide, by decide, ?_⟩
  exact (configure_station_conflict controllerWithA conflictCfgB conflictCfgA
    rfl (by decide) (by decide)).1

/-- C4: start transitions Idle to Running spawning exactly one worker per
enabled station and none for disabled ones; it fails with AlreadyRunning
when not Idle and with NoStationsConfigured when no station is enabled. -/
theorem start_production_spec (c : Controller) :
    (c.phase = .Idle → enabledConfigs c ≠ [] →
      ∃ c1, startProduction c = .ok c1 ∧ c1.phase = .Running ∧
        c1.workers.map RunningWorker.config = enabledConfigs c ∧
        c1.configs = c.configs) ∧
    (c.phase ≠ .Idle → startProduction c = .error .AlreadyRunning) ∧
    (c.phase = .Idle → enabledConfigs c = [] →
      startProduction c = .error .NoStationsConfigured) := by
  refine ⟨?_, ?_, ?_⟩
  · intro hidle hne
    refine ⟨{ c with phase := .Running, workers := (enabledConfigs c).map mkWorker },
      ?_, rfl, ?_, rfl⟩
    · unfold startProduction
      rw [hidle]
      simp [List.isEmpty_iff, hne]
    · have : RunningWorker.config ∘ mkWorker = id := by
        funext x
        rfl
      simp [this]
  · intro hnidle
    unfold startProduction
    cases hp : c.phase with
    | Idle => exact absurd hp hnidle
    | Running => rfl
    | Stopping => rfl
  · intro hidle hempty
    unfold startProduction
    rw [hidle]
    simp [List.isEmpty_iff, hempty]

/-- C4 witness: the three branches at concrete controllers: the seven
enabled stations of the mapping table start, a Running controller is
rejected with AlreadyRunning, and an empty Idle controller is rejected
with NoStationsConfigured. -/
theorem start_production_spec_witness :
    fleetController.phase = CtrlPhase.Idle ∧
    enabledConfigs fleetController ≠ [] ∧
    (∃ c1, startProduction fleetController = .ok c1 ∧ c1.phase = .Running ∧
      c1.workers.map RunningWorker.config = enabledConfigs fleetController ∧
      c1.configs = fleetController.configs) ∧
    startProduction { fleetController with phase := .Running }
      = .error .AlreadyRunning ∧
    startProduction emptyController = .error .NoStationsConfigured := by
  refine ⟨rfl, by decide, ?_, ?_, ?_⟩
  · exact (start_production_spec fleetController).1 rfl (by decide)
  · exact (start_production_spec { fleetController with phase := .Running }).2.1
      (by decide)
  · exact (start_production_spec emptyController).2.2 rfl rfl

/-- C5: for a non-conflicting configuration with at least one enabled
station, start followed by stop sets stopRequested on every worker, stops
every worker whose checkpoint falls inside the grace period, force-detaches
stragglers with a StopTimeout warning while preserving their last known
state, always returns the controller to Idle so that a later start
succeeds, and the stop call returns within the grace period plus one
hardware transaction. -/
theorem stop_production_spec (c : Controller) (timeout : Nat) (c1 : Controller)
    (hidle : c.phase = .Idle)
    (hnc : c.configs.Pairwise (fun x y => conflictsWith x y = false))
    (hne : enabledConfigs c ≠ [])
    (hstart : startProduction c = .ok c1) :
    (stopProduction c1 timeout).controller.phase = .Idle ∧
    (∀ o ∈ (stopProduction c1 timeout).outcomes,
      o.lastKnownState.stopRequested = true) ∧
    (∀ w ∈ c1.workers,
      (w.checkpointDelay ≤ timeout →
        (stopWorker timeout w).stopTimeoutWarning = false ∧
        (stopWorker timeout w).lastKnownState.phase = .STOPPED) ∧
      (timeout < w.checkpointDelay →
        (stopWorker timeout w).stopTimeoutWarning = true ∧
        (stopWorker timeout w).lastKnownState.phase = w.rt.phase ∧
        (stopWorker timeout w).lastKnownState.cyclesCompleted
          = w.rt.cyclesCompleted)) ∧
    (∃ c2, startProduction ((stopProduction c1 timeout).controller) = .ok c2) ∧
    (stopProduction c1 timeout).elapsedMs ≤ timeout + hardwareTransactionMs := by
  have hc1 : c1 = { c with phase := .Running, workers := (enabledConfigs c).map mkWorker } := by
    unfold startProduction at hstart
    rw [hidle] at hstart
    simp [List.isEmpty_iff, hne] at hstart
    exact hstart.symm
  subst hc1
  have hrun : ({ c with phase := .Running
                        workers := (enabledConfigs c).map mkWorker } : Controller).phase
      = CtrlPhase.Running := rfl
  refine ⟨?_, ?_, ?_, ?_, ?_⟩
  · simp [stopProduction]
  · intro o ho
    simp only [stopProduction, List.mem_map] at ho
    obtain ⟨w, _, rfl⟩ := ho
    unfold stopWorker
    by_cases hd : w.checkpointDelay ≤ timeout <;> simp [hd]
  · intro w _
    constructor
    · intro hd
      unfold stopWorker
      simp [hd]
    · intro hd
      unfold stopWorker
      have hd2 : ¬ w.checkpointDelay ≤ timeout := by omega
      simp [hd2]
  · refine ⟨{ c with phase := .Running, workers := (enabledConfigs c).map mkWorker },
      ?_⟩
    obtain ⟨x, hx⟩ := List.exists_mem_of_ne_nil _ hne
    unfold enabledConfigs at hx
    obtain ⟨hxc, hxe⟩ := List.mem_filter.mp hx
    unfold stopProduction
    simp only []
    unfold startProduction
    simp only [List.isEmpty_iff, enabledConfigs]
    simp only [enabledConfigs] at hne
    simp [hne]
  · show stopElapsed timeout ((enabledConfigs c).map mkWorker)
        ≤ timeout + hardwareTransactionMs
    unfold stopElapsed
    calc min timeout (maxCheckpointDelay ((enabledConfigs c).map mkWorker))
        ≤ timeout := Nat.min_le_left _ _
      _ ≤ timeout + hardwareTransactionMs := Nat.le_add_right _ _

/-- C5 witness: starting the seven-station fleet and immediately stopping
with a 50 ms grace period returns to Idle within the bound. -/
theorem stop_production_spec_witness :
    fleetController.phase = CtrlPhase.Idle ∧
    fleetController.configs.Pairwise (fun x y => conflictsWith x y = false) ∧
    enabledConfigs fleetController ≠ [] ∧
    startProduction fleetController = .ok fleetRunning ∧
    (stopProduction fleetRunning 50).controller.phase = .Idle ∧
    (stopProduction fleetRunning 50).elapsedMs ≤ 50 + hardwareTransactionMs := by
  have h := stop_production_spec fleetController 50 fleetRunning rfl
    (by decide) (by decide) rfl
  exact ⟨rfl, by decide, by decide, rfl, h.1, h.2.2.2.2⟩

theorem append_singleton_cases {α : Type} {xs pre post : List α} {a b : α}
    (h : xs ++ [a] = pre ++ b :: post) :
    (post = [] ∧ pre = xs ∧ b = a) ∨
    ∃ post0, post = post0 ++ [a] ∧ xs = pre ++ b :: post0 := by
  rcases List.eq_nil_or_concat post with hp | ⟨post0, c, hp⟩
  · subst hp
    obtain ⟨h1, h2⟩ := List.append_inj' h (by simp)
    exact Or.inl ⟨rfl, h1.symm, by simpa using h2.symm⟩
  · rw [List.concat_eq_append] at hp
    subst hp
    rw [show pre ++ b :: (post0 ++ [c]) = (pre ++ b :: post0) ++ [c] by simp] at h
    obtain ⟨h1, h2⟩ := List.append_inj' h (by simp)
    have hc : a = c := by simpa using h2
    exact Or.inr ⟨post0, by rw [hc], h1⟩

theorem wellFormedTxn_ne_nil {t : List BusOp} (h : WellFormedTxn t) : t ≠ [] := by
  rcases h with ⟨l, rfl⟩ | ⟨l, rfl⟩ | ⟨c, rfl⟩ <;>
    simp [readInputTxn, pulseTxn, sendResultTxn]

theorem txnSuffix_tail {op : BusOp} {ops : List BusOp}
    (h : TxnSuffix (op :: ops)) : TxnSuffix ops := by
  obtain ⟨t, hwf, hsuf⟩ := h
  exact ⟨t, hwf, (List.suffix_cons op ops).trans hsuf⟩

theorem txnSuffix_assert {l : Nat} {ops : List BusOp}
    (h : TxnSuffix (BusOp.assertLine l :: ops)) : ops = [BusOp.deassertLine l] := by
  obtain ⟨t, hwf, p, hp⟩ := h
  rcases hwf with ⟨m, rfl⟩ | ⟨m, rfl⟩ | ⟨c, rfl⟩
  · cases p <;> simp [readInputTxn] at hp
  · cases p with
    | nil =>
        simp only [pulseTxn, List.nil_append, List.cons.injEq] at hp
        obtain ⟨h1, h2⟩ := hp
        simp only [BusOp.assertLine.injEq] at h1
        rw [h2, h1]
    | cons x q => cases q <;> simp [pulseTxn] at hp
  · cases p with
    | nil => simp [sendResultTxn] at hp
    | cons x q => cases q <;> simp [sendResultTxn] at hp

theorem busInv_init {s : BusSys} (h : BusInit s) : BusInv s := by
  obtain ⟨hh, ht, hp⟩ := h
  refine ⟨?_, ?_, hp⟩
  · intro pre i l post hdec
    rw [ht] at hdec
    exact absurd hdec (by simp)
  · intro i ops hsome
    rw [hh] at hsome
    exact absurd hsome (by simp)

theorem busInv_step {s t : BusSys} (hinv : BusInv s) (hstep : BusStep s t) :
    BusInv t := by
  obtain ⟨htr, hold, hpr⟩ := hinv
  cases hstep with
  | acquire i tx rest hnone hget =>
      refine ⟨?_, ?_, ?_⟩
      · intro pre j l post hdec
        have hdec2 : s.trace = pre ++ (j, BusOp.assertLine l) :: post := hdec
        rcases htr pre j l post hdec2 with h | ⟨_, hsome⟩
        · exact Or.inl h
        · rw [hnone] at hsome
          exact absurd hsome (by simp)
      · intro j ops hsome
        have hsome2 : (some (i, tx) : Option (Nat × List BusOp)) = some (j, ops) :=
          hsome
        have h2 : (i, tx) = (j, ops) := by simpa using hsome2
        obtain ⟨hj, hops⟩ := Prod.mk.inj h2
        subst hj
        subst hops
        have hmem : tx :: rest ∈ s.progs := List.get?_mem hget
        have hwf : WellFormedTxn tx := hpr _ hmem _ (List.mem_cons_self _ _)
        exact ⟨wellFormedTxn_ne_nil hwf, tx, hwf, List.suffix_refl _⟩
      · intro p hp u hu
        have hp2 : p ∈ s.progs.set i rest := hp
        rcases List.mem_or_eq_of_mem_set hp2 with hp3 | hp4
        · exact hpr p hp3 u hu
        · have hmem : tx :: rest ∈ s.progs := List.get?_mem hget
          have hu2 : u ∈ tx :: rest := by
            rw [hp4] at hu
            exact List.mem_cons_of_mem _ hu
          exact hpr _ hmem u hu2
  | micro i op ops hsome =>
      obtain ⟨hne, hsuf⟩ := hold i (op :: ops) hsome
      refine ⟨?_, ?_, hpr⟩
      · intro pre j l post hdec
        have hdec2 : s.trace ++ [(i, op)] = pre ++ (j, BusOp.assertLine l) :: post :=
          hdec
        rcases append_singleton_cases hdec2 with ⟨hpost, hpre, hop⟩ | ⟨post0, hpost, htrace⟩
        · obtain ⟨hj, hop2⟩ := Prod.mk.inj hop
          subst hj
          have hopa : op = BusOp.assertLine l := hop2.symm
          subst hopa
          have hops : ops = [BusOp.deassertLine l] := txnSuffix_assert hsuf
          subst hops
          exact Or.inr ⟨hpost, rfl⟩
        · rcases htr pre j l post0 htrace with ⟨rest0, hr⟩ | ⟨hpost0, hsome0⟩
          · exact Or.inl ⟨rest0 ++ [(i, op)], by rw [hpost, hr]; simp⟩
          · rw [hsome] at hsome0
            have h2 : (i, op :: ops) = (j, [BusOp.deassertLine l]) := by
              simpa using hsome0
            obtain ⟨hj, hops⟩ := Prod.mk.inj h2
            subst hj
            have hop2 : op = BusOp.deassertLine l := (List.cons.inj hops).1
            refine Or.inl ⟨[], ?_⟩
            rw [hpost, hpost0, hop2]
            simp
      · intro j ops2 hsome2
        have hsome3 : (if ops.isEmpty then none else some (i, ops))
            = some (j, ops2) := hsome2
        by_cases he : ops.isEmpty = true
        · rw [if_pos he] at hsome3
          exact absurd hsome3 (by simp)
        · rw [if_neg he] at hsome3
          have h2 : (i, ops) = (j, ops2) := by simpa using hsome3
          obtain ⟨hj, hops⟩ := Prod.mk.inj h2
          subst hj
          subst hops
          refine ⟨?_, txnSuffix_tail hsuf⟩
          intro hnil
          rw [hnil] at he
          simp at he

theorem busInv_reach {init s : BusSys} (hinit : BusInit init)
    (h : BusReach init s) : BusInv s := by
  induction h with
  | refl => exact busInv_init hinit
  | step hr hs ih => exact busInv_step ih hs

/-- C8: under the single IOChannel lock every hardware transaction executes
without interleaving, for any scheduling of the station workers: in every
reachable state the lock is held only mid-transaction (on a nonempty tail
of one well-formed transaction), and whenever the bus history contains an
assert that is not its last entry, the very next bus access is the matching
deassert by the same worker, so no other line access ever executes between
assert and deassert. -/
theorem io_lock_pulse_atomicity (init s : BusSys) (hinit : BusInit init)
    (hreach : BusReach init s) :
    (∀ pre i l post, s.trace = pre ++ (i, BusOp.assertLine l) :: post →
      post ≠ [] → ∃ rest, post = (i, BusOp.deassertLine l) :: rest) ∧
    (∀ i ops, s.holder = some (i, ops) → ops ≠ [] ∧ TxnSuffix ops) := by
  obtain ⟨htr, hold, _⟩ := busInv_reach hinit hreach
  refine ⟨?_, hold⟩
  intro pre i l post hdec hne
  rcases htr pre i l post hdec with h | ⟨hpost, _⟩
  · exact h
  · exact absurd hpost hne

/-- C8 witness: a two-worker fleet in which worker 0 executes a full pulse
transaction; the completed history satisfies the atomicity property. -/
theorem io_lock_pulse_atomicity_witness :
    BusInit busDemoInit ∧
    BusReach busDemoInit busDemoDone ∧
    (∃ rest, [(0, BusOp.deassertLine 0)]
      = ((0 : Nat), BusOp.deassertLine 0) :: rest) := by
  have hinit : BusInit busDemoInit := by
    refine ⟨rfl, rfl, ?_⟩
    intro p hp t ht
    simp only [busDemoInit, List.mem_cons, List.not_mem_nil, or_false] at hp
    rcases hp with rfl | rfl
    · simp only [List.mem_cons, List.not_mem_nil, or_false] at ht
      rw [ht]
      exact Or.inr (Or.inl ⟨0, rfl⟩)
    · simp only [List.mem_cons, List.not_mem_nil, or_false] at ht
      rw [ht]
      exact Or.inl ⟨1, rfl⟩
  have h1 : BusStep busDemoInit
      { progs := [[], [readInputTxn 1]], holder := some (0, pulseTxn 0), trace := [] } :=
    BusStep.acquire busDemoInit 0 (pulseTxn 0) [] rfl rfl
  have h2 : BusStep
      { progs := [[], [readInputTxn 1]], holder := some (0, pulseTxn 0), trace := [] }
      { progs := [[], [readInputTxn 1]], holder := some (0, [BusOp.deassertLine 0])
        trace := [(0, BusOp.assertLine 0)] } :=
    BusStep.micro _ 0 (BusOp.assertLine 0) [BusOp.deassertLine 0] rfl
  have h3 : BusStep
      { progs := [[], [readInputTxn 1]], holder := some (0, [BusOp.deassertLine 0])
        trace := [(0, BusOp.assertLine 0)] }
      busDemoDone :=
    BusStep.micro _ 0 (BusOp.deassertLine 0) [] rfl
  have hreach : BusReach busDemoInit busDemoDone :=
    .step (.step (.step .refl h1) h2) h3
  refine ⟨hinit, hreach, ?_⟩
  exact (io_lock_pulse_atomicity busDemoInit busDemoDone hinit hreach).1
    [] 0 0 [(0, BusOp.deassertLine 0)] rfl (by simp)

/-- C10: with an empty registry entry, capture at Doc1 (TOP) can still
succeed through the OpenCV laptop camera fallback at device index 0, while
capture at Doc2 through Doc7 always fails, whatever the device layer does. -/
theorem doc1_laptop_fallback :
    resolveCaptureSource 1 none = some (.laptopCam 0) ∧
    (∃ dev : CaptureSource → Option Nat, ∃ frame,
      captureAtStation 1 none dev = some frame) ∧
    (∀ d, 2 ≤ d → d ≤ 7 → ∀ dev : CaptureSource → Option Nat,
      captureAtStation d none dev = none) := by
  refine ⟨rfl, ⟨fun _ => some 0, 0, rfl⟩, ?_⟩
  intro d h2 h7 dev
  unfold captureAtStation resolveCaptureSource
  have hd : (d == 1) = false := by
    simp only [beq_eq_false_iff_ne, ne_eq]
    omega
  simp [hd]

/-- C10 witness: the Doc2-Doc7 conjunct discharged at Doc3. -/
theorem doc1_laptop_fallback_witness :
    2 ≤ 3 ∧ 3 ≤ 7 ∧
    captureAtStation 3 none (fun _ => some 0) = none := by
  refine ⟨by decide, by decide, ?_⟩
  exact doc1_laptop_fallback.2.2 3 (by decide) (by decide) (fun _ => some 0)

end ChipChap
